import Mathlib

/-!
Shallow embedding of the merlo-rs character-movement core
(crates/simulation/src/controller.rs and crates/presentation/src/animation.rs).

Floating point values are idealised as exact rationals. The one operation of
the source that is not rational-exact is the square root used by the glam
vector helpers; it is embedded by ratSqrt below, which is exact on perfect
squares (every concrete input evaluated in this development) and a floor
approximation elsewhere. The physics ray cast is treated as an abstract
collaborator, as the specification prescribes.
-/

namespace Merlo

/-- Rational stand-in for the f32 square root: exact whenever the numerator
and denominator are perfect squares, floor-approximate otherwise. -/
def ratSqrt (q : ℚ) : ℚ :=
  (Nat.sqrt q.num.toNat : ℚ) / (Nat.sqrt q.den : ℚ)

/-- Three-component vector over exact rationals, embedding glam Vec3. -/
structure Vec3 where
  x : ℚ
  y : ℚ
  z : ℚ
  deriving DecidableEq, Repr

def Vec3.zero : Vec3 := ⟨0, 0, 0⟩

def Vec3.unitY : Vec3 := ⟨0, 1, 0⟩

instance : Add Vec3 := ⟨fun a b => ⟨a.x + b.x, a.y + b.y, a.z + b.z⟩⟩

instance : Sub Vec3 := ⟨fun a b => ⟨a.x - b.x, a.y - b.y, a.z - b.z⟩⟩

instance : Neg Vec3 := ⟨fun a => ⟨-a.x, -a.y, -a.z⟩⟩

/-- Scalar multiple of a vector. -/
def vscale (k : ℚ) (v : Vec3) : Vec3 := ⟨k * v.x, k * v.y, k * v.z⟩

/-- Cross product, as used by the glam quaternion rotation formula. -/
def cross (a b : Vec3) : Vec3 :=
  ⟨a.y * b.z - a.z * b.y, a.z * b.x - a.x * b.z, a.x * b.y - a.y * b.x⟩

/-- Squared Euclidean norm (glam length_squared). -/
def normSq (v : Vec3) : ℚ := v.x * v.x + v.y * v.y + v.z * v.z

/-- Componentwise clamp of a scalar (Rust clamp is max with the lower bound
followed by min with the upper bound). -/
def clampQ (lo hi t : ℚ) : ℚ := min hi (max lo t)

/-- Componentwise Vec3::clamp. -/
def vclamp (lo hi : Vec3) (v : Vec3) : Vec3 :=
  ⟨clampQ lo.x hi.x v.x, clampQ lo.y hi.y v.y, clampQ lo.z hi.z v.z⟩

/-- glam Vec3::clamp_length_max: rescale to the given length when the
squared length exceeds its square, otherwise leave the vector unchanged. -/
def clamp_length_max (v : Vec3) (maxLen : ℚ) : Vec3 :=
  let lsq := normSq v
  if maxLen * maxLen < lsq then vscale (maxLen / ratSqrt lsq) v else v

/-- glam Vec3::normalize_or_zero: divide by the length when it is positive,
otherwise return the zero vector. -/
def normalize_or_zero (v : Vec3) : Vec3 :=
  let len := ratSqrt (normSq v)
  if 0 < len then vscale (1 / len) v else Vec3.zero

/-- Quaternion over exact rationals, embedding glam Quat. -/
structure Quat where
  x : ℚ
  y : ℚ
  z : ℚ
  w : ℚ
  deriving DecidableEq, Repr

/-- The identity rotation. -/
def Quat.identity : Quat := ⟨0, 0, 0, 1⟩

/-- glam Quat::mul_vec3: v + w * t + cross(q.xyz, t) with t = 2 cross(q.xyz, v). -/
def quat_mul_vec3 (q : Quat) (v : Vec3) : Vec3 :=
  let qv : Vec3 := ⟨q.x, q.y, q.z⟩
  let t := vscale 2 (cross qv v)
  v + vscale q.w t + cross qv t

/-- The MovementAction message enum of controller.rs. -/
inductive MovementAction where
  | AddMove (direction : Vec3)
  | SetMove (direction : Vec3)
  | SetSpeed (speed : ℚ)
  | RotateRight (value : Bool)
  | RotateLeft (value : Bool)
  | SetRotate (value : ℚ)
  | SetJump (jumping : Bool)
  deriving DecidableEq, Repr

/-- The replicated CharacterMovementState component. -/
structure CharacterMovementState where
  speed : ℚ
  direction : Vec3
  jumping : Bool
  rotating : ℚ
  rotating_right : Bool
  rotating_left : Bool
  grounded : Bool
  deriving DecidableEq, Repr

/-- The Default impl of CharacterMovementState. -/
def CharacterMovementState.default : CharacterMovementState :=
  { speed := 15 / 100
    direction := Vec3.zero
    jumping := false
    rotating := 0
    rotating_right := false
    rotating_left := false
    grounded := true }

/-- CharacterMovementState::add_direction: accumulate then clamp each axis
to the [-1, 1] box. -/
def CharacterMovementState.add_direction
    (s : CharacterMovementState) (direction : Vec3) : CharacterMovementState :=
  let minDir : Vec3 := ⟨-1, -1, -1⟩
  let maxDir : Vec3 := ⟨1, 1, 1⟩
  { s with direction := vclamp minDir maxDir (s.direction + direction) }

/-- CharacterMovementState::apply_right_left_rotation. -/
def CharacterMovementState.apply_right_left_rotation
    (s : CharacterMovementState) : CharacterMovementState :=
  match s.rotating_right, s.rotating_left with
  | true, false => { s with rotating := -1 }
  | false, true => { s with rotating := 1 }
  | _, _ => { s with rotating := 0 }

/-- CharacterMovementState::is_moving. -/
def CharacterMovementState.is_moving (s : CharacterMovementState) : Bool :=
  decide (s.direction ≠ Vec3.zero)

/-- CharacterMovementState::is_moving_backwards. -/
def CharacterMovementState.is_moving_backwards (s : CharacterMovementState) : Bool :=
  decide (s.direction.z < 0)

/-- CharacterMovementState::is_running. -/
def CharacterMovementState.is_running (s : CharacterMovementState) : Bool :=
  decide (15 / 100 ≤ s.speed)

/-- The Replicon client connection state consulted by the authority gate. -/
inductive ClientState where
  | Disconnected
  | Connecting
  | Connected
  deriving DecidableEq, Repr

/-- has_server_authority: this process runs authoritative simulation exactly
when its Replicon client state is Disconnected. -/
def has_server_authority (client_state : ClientState) : Bool :=
  decide (client_state = ClientState.Disconnected)

/-- The three process roles of the specification. The mapping to a Replicon
ClientState follows the comment on has_server_authority in controller.rs:
Disconnected covers dedicated server and single-player, while connected
remote clients are in Connecting or Connected. -/
inductive ProcessRole where
  | DedicatedServer
  | SinglePlayer
  | ConnectedClient
  deriving DecidableEq, Repr

/-- Replicon client state of each process role, per the comment on
has_server_authority in controller.rs. -/
def clientStateOfRole : ProcessRole → ClientState
  | ProcessRole.DedicatedServer => ClientState.Disconnected
  | ProcessRole.SinglePlayer => ClientState.Disconnected
  | ProcessRole.ConnectedClient => ClientState.Connected

/-- Identifier of the client that sent a message (the FromClient wrapper). -/
def ClientId : Type := ℕ

/-- Rapier Velocity component: linear and angular velocity. -/
structure Velocity where
  linvel : Vec3
  angvel : Vec3
  deriving DecidableEq, Repr

def Velocity.zero : Velocity := ⟨Vec3.zero, Vec3.zero⟩

/-- The MovementData query row of the movement system: acceleration constant,
the rotation of the Transform of the entity, jump impulse strength, the
movement state and the rapier velocity. -/
structure MovementData where
  movement_acceleration : ℚ
  rotation : Quat
  jump_impulse : ℚ
  movement_state : CharacterMovementState
  velocity : Velocity
  deriving DecidableEq, Repr

/-- One step of the input-collection loop of the movement system
(controller.rs lines 393-417): the pair carries the movement state and the
local set_rotation accumulator, initialised to 0 before the loop. -/
def applyAction (p : CharacterMovementState × ℚ) (a : MovementAction) :
    CharacterMovementState × ℚ :=
  match a with
  | MovementAction.AddMove direction => (p.1.add_direction direction, p.2)
  | MovementAction.SetMove direction => ({ p.1 with direction := direction }, p.2)
  | MovementAction.SetSpeed speed => ({ p.1 with speed := speed }, p.2)
  | MovementAction.RotateRight value => ({ p.1 with rotating_right := value }, p.2)
  | MovementAction.RotateLeft value => ({ p.1 with rotating_left := value }, p.2)
  | MovementAction.SetRotate value => (p.1, value)
  | MovementAction.SetJump jumping => ({ p.1 with jumping := jumping }, p.2)

/-- The whole per-tick input fold of the movement system: returns the folded
state and the final value of the set_rotation local. -/
def foldActions (s : CharacterMovementState) (acts : List MovementAction) :
    CharacterMovementState × ℚ :=
  acts.foldl applyAction (s, 0)

/-- The world-space direction derived after the fold (controller.rs lines
420-422): clamp the stored direction to unit length, rotate it by the
rotation of the entity, then normalise or zero. -/
def worldDir (rotation : Quat) (s : CharacterMovementState) : Vec3 :=
  let direction := clamp_length_max s.direction 1
  normalize_or_zero (quat_mul_vec3 rotation direction)

/-- The effective speed of the fold (controller.rs lines 425-429): forced to
the walk constant when moving backwards, else the stored speed field. -/
def effectiveSpeed (s : CharacterMovementState) : ℚ :=
  if s.is_moving_backwards then 5 / 100 else s.speed

/-- Resolution of the rotating field after the fold (controller.rs lines
435-439): a zero set_rotation falls back to the latched right and left
toggles, a nonzero one is written directly. -/
def resolveRotation (s : CharacterMovementState) (set_rotation : ℚ) :
    CharacterMovementState :=
  if set_rotation = 0 then s.apply_right_left_rotation
  else { s with rotating := set_rotation }

/-- The body of the movement system for one controller entity and the list
of actions its reader yields this tick, mirroring controller.rs 382-446:
reset horizontal linear and yaw angular velocity, fold the actions, derive
the velocity command, resolve rotation, and finally apply the jump impulse
when grounded and jumping. -/
def movementStep (d : MovementData) (acts : List MovementAction) : MovementData :=
  let v0 : Velocity :=
    { linvel := { d.velocity.linvel with x := 0, z := 0 }
      angvel := { d.velocity.angvel with y := 0 } }
  let folded := foldActions d.movement_state acts
  let s1 := folded.1
  let world := worldDir d.rotation s1
  let speed := effectiveSpeed s1
  let v1 := { v0 with linvel :=
    { v0.linvel with x := world.x * d.movement_acceleration * speed } }
  let v2 := { v1 with linvel :=
    { v1.linvel with z := world.z * d.movement_acceleration * speed } }
  let s2 := resolveRotation s1 folded.2
  let v3 := { v2 with angvel := { v2.angvel with y := s2.rotating * 4 } }
  let v4 :=
    if s2.grounded && s2.jumping then
      { v3 with linvel := { v3.linvel with y := d.jump_impulse } }
    else v3
  { d with movement_state := s2, velocity := v4 }

/-- The movement system over the list of controller entities, with the
MessageReader modelled explicitly: the reader starts the tick holding every
FromClient message, the read call inside the loop body yields all messages
still unread and leaves the reader drained, and only the message payload is
consulted, never the sender. -/
def movementAux : List (ClientId × MovementAction) → List MovementData →
    List MovementData
  | _, [] => []
  | reader, d :: rest =>
      movementStep d (reader.map Prod.snd) :: movementAux [] rest

/-- The movement system: fold the FromClient messages of this tick over the
controller entities in iteration order. -/
def movement (events : List (ClientId × MovementAction))
    (controllers : List MovementData) : List MovementData :=
  movementAux events controllers

/-- The Movement set of the Update schedule as wired by
CharacterControllerPlugin::build: the movement system runs under
run_if(has_server_authority), so without authority the controllers are left
untouched. -/
def movementSet (client_state : ClientState)
    (events : List (ClientId × MovementAction))
    (controllers : List MovementData) : List MovementData :=
  if has_server_authority client_state then movement events controllers
  else controllers

/-- Identifier of an entity, used to exclude the own collider of the
controller from the ground-probe ray cast. -/
def EntityId : Type := ℕ

/-- Result of the rapier cast_ray_and_get_normal query for the ground probe.
The probe consumes the returned surface normal only through the expression
normal.angle_between(Vec3::Y).abs(); the nonnegative angle returned by that
library call is therefore carried directly, since trigonometry on the raw
normal belongs to the black-box math library. -/
structure RayIntersection where
  normalAngleFromUp : ℚ
  deriving DecidableEq, Repr

/-- Abstract physics ray-cast collaborator: origin, direction, maximum
distance, and the entity whose collider the query filter excludes. -/
def CastRay : Type :=
  Vec3 → Vec3 → ℚ → EntityId → Option RayIntersection

/-- Probe origin offset below the reference point of the entity. -/
def PROBE_ORIGIN_TO_FOOT : ℚ := 3 / 2

/-- Probe ray length. -/
def PROBE_DISTANCE : ℚ := 1 / 2

/-- The body of update_grounded for one controller entity: cast a ray
downward from just above the foot, excluding the collider of the entity, and
store grounded = hit AND (no slope limit OR angle from up within the limit)
into the movement state. -/
def update_grounded_entity (cast_ray : CastRay) (entity : EntityId)
    (translation : Vec3) (max_slope_angle : Option ℚ)
    (s : CharacterMovementState) : CharacterMovementState :=
  let origin := translation - vscale (PROBE_ORIGIN_TO_FOOT - 1 / 100) Vec3.unitY
  let dir := -Vec3.unitY
  let grounded :=
    match cast_ray origin dir PROBE_DISTANCE entity with
    | some i =>
        match max_slope_angle with
        | some angle => decide (|i.normalAngleFromUp| ≤ angle)
        | none => true
    | none => false
  { s with grounded := grounded }

/-- The animation categories of animation.rs. -/
inductive CharacterAnimation where
  | Idle
  | Walk
  | Run
  | Fall
  deriving DecidableEq, Repr

/-- The next_animation selection of update_animation (animation.rs lines
106-114). -/
def next_animation (s : CharacterMovementState) : CharacterAnimation :=
  if !s.grounded then CharacterAnimation.Fall
  else if !s.is_moving then CharacterAnimation.Idle
  else if s.is_running then CharacterAnimation.Run
  else CharacterAnimation.Walk

/-- One sample of the keyboard conditions read by keyboard_input: a field
per just-pressed and just-released edge tested by the system. -/
structure KeyboardSample where
  press_forward : Bool
  press_backward : Bool
  press_left : Bool
  press_right : Bool
  press_shift : Bool
  press_rotate_left : Bool
  press_rotate_right : Bool
  press_jump : Bool
  release_forward : Bool
  release_backward : Bool
  release_left : Bool
  release_right : Bool
  release_shift : Bool
  release_rotate_left : Bool
  release_rotate_right : Bool
  release_jump : Bool
  deriving DecidableEq, Repr

/-- The keyboard_input system: the actions written for one sample of the
keyboard, in the emission order of the source. -/
def keyboard_input (k : KeyboardSample) : List MovementAction :=
  (if k.press_forward then [MovementAction.AddMove ⟨0, 0, 1⟩] else [])
  ++ (if k.press_backward then [MovementAction.AddMove ⟨0, 0, -1⟩] else [])
  ++ (if k.press_left then [MovementAction.AddMove ⟨1, 0, 0⟩] else [])
  ++ (if k.press_right then [MovementAction.AddMove ⟨-1, 0, 0⟩] else [])
  ++ (if k.press_shift then [MovementAction.SetSpeed (5 / 100)] else [])
  ++ (if k.press_rotate_left then [MovementAction.RotateLeft true] else [])
  ++ (if k.press_rotate_right then [MovementAction.RotateRight true] else [])
  ++ (if k.press_jump then [MovementAction.SetJump true] else [])
  ++ (if k.release_forward then [MovementAction.AddMove ⟨0, 0, -1⟩] else [])
  ++ (if k.release_backward then [MovementAction.AddMove ⟨0, 0, 1⟩] else [])
  ++ (if k.release_left then [MovementAction.AddMove ⟨-1, 0, 0⟩] else [])
  ++ (if k.release_right then [MovementAction.AddMove ⟨1, 0, 0⟩] else [])
  ++ (if k.release_shift then [MovementAction.SetSpeed (15 / 100)] else [])
  ++ (if k.release_rotate_left then [MovementAction.RotateLeft false] else [])
  ++ (if k.release_rotate_right then [MovementAction.RotateRight false] else [])
  ++ (if k.release_jump then [MovementAction.SetJump false] else [])

/-- Each component of the stored direction lies in the [-1, 1] box. -/
def dirInBounds (s : CharacterMovementState) : Prop :=
  -1 ≤ s.direction.x ∧ s.direction.x ≤ 1 ∧
  -1 ≤ s.direction.y ∧ s.direction.y ≤ 1 ∧
  -1 ≤ s.direction.z ∧ s.direction.z ≤ 1

instance (s : CharacterMovementState) : Decidable (dirInBounds s) := by
  unfold dirInBounds
  infer_instance

/-- The stored speed is one of the two named presets: run or walk. -/
def speedPreset (s : CharacterMovementState) : Prop :=
  s.speed = 15 / 100 ∨ s.speed = 5 / 100

instance (s : CharacterMovementState) : Decidable (speedPreset s) := by
  unfold speedPreset
  infer_instance

/-- Every SetMove payload of the list has all components in [-1, 1]. -/
def setMovesBounded (acts : List MovementAction) : Bool :=
  acts.all fun a =>
    match a with
    | MovementAction.SetMove v =>
        decide (-1 ≤ v.x ∧ v.x ≤ 1 ∧ -1 ≤ v.y ∧ v.y ≤ 1 ∧ -1 ≤ v.z ∧ v.z ≤ 1)
    | _ => true

/-- Every SetSpeed payload of the list is one of the two named presets. -/
def setSpeedsPreset (acts : List MovementAction) : Bool :=
  acts.all fun a =>
    match a with
    | MovementAction.SetSpeed v => decide (v = 15 / 100 ∨ v = 5 / 100)
    | _ => true

/-- The final value of the set_rotation local of the movement system: the
value of the last SetRotate of the tick, or 0 when none arrived. -/
def finalSetRotation (acts : List MovementAction) : ℚ :=
  acts.foldl
    (fun r a =>
      match a with
      | MovementAction.SetRotate v => v
      | _ => r)
    0

/-- A scalar clamp lands inside the interval when the bounds are ordered. -/
theorem clampQ_mem (lo hi t : ℚ) (h : lo ≤ hi) :
    lo ≤ clampQ lo hi t ∧ clampQ lo hi t ≤ hi := by
  constructor
  · exact le_min h (le_max_left lo t)
  · exact min_le_left hi (max lo t)

/-- add_direction always leaves every component of direction in [-1, 1]. -/
theorem add_direction_bounds (s : CharacterMovementState) (v : Vec3) :
    dirInBounds (s.add_direction v) := by
  unfold dirInBounds CharacterMovementState.add_direction vclamp
  refine ⟨?_, ?_, ?_, ?_, ?_, ?_⟩ <;>
    first
      | exact (clampQ_mem (-1) 1 _ (by norm_num)).1
      | exact (clampQ_mem (-1) 1 _ (by norm_num)).2

/-- A predicate preserved by every step of the input fold is preserved by
the whole fold. -/
theorem foldl_applyAction_preserve (P : CharacterMovementState → Prop) :
    ∀ (acts : List MovementAction) (p : CharacterMovementState × ℚ),
      P p.1 →
      (∀ q a, a ∈ acts → P q.1 → P (applyAction q a).1) →
      P (acts.foldl applyAction p).1 := by
  intro acts
  induction acts with
  | nil =>
      intro p hp _
      exact hp
  | cons a rest ih =>
      intro p hp hstep
      rw [List.foldl_cons]
      exact ih _ (hstep p a (by simp) hp)
        (fun q b hb => hstep q b (by simp [hb]))

/-- The second component of the input fold is exactly the last SetRotate
value of the list, independent of the state threaded along. -/
theorem foldl_applyAction_snd :
    ∀ (acts : List MovementAction) (p : CharacterMovementState × ℚ),
      (acts.foldl applyAction p).2 =
        acts.foldl
          (fun r a =>
            match a with
            | MovementAction.SetRotate v => v
            | _ => r)
          p.2 := by
  intro acts
  induction acts with
  | nil =>
      intro p
      rfl
  | cons a rest ih =>
      intro p
      rw [List.foldl_cons, List.foldl_cons, ih]
      cases a <;> rfl

/-- apply_right_left_rotation touches only the rotating field. -/
theorem apply_right_left_rotation_fields (s : CharacterMovementState) :
    (s.apply_right_left_rotation).grounded = s.grounded ∧
    (s.apply_right_left_rotation).jumping = s.jumping ∧
    (s.apply_right_left_rotation).rotating_right = s.rotating_right ∧
    (s.apply_right_left_rotation).rotating_left = s.rotating_left ∧
    (s.apply_right_left_rotation).direction = s.direction ∧
    (s.apply_right_left_rotation).speed = s.speed := by
  unfold CharacterMovementState.apply_right_left_rotation
  rcases h1 : s.rotating_right <;> rcases h2 : s.rotating_left <;> simp

/-- resolveRotation touches only the rotating field. -/
theorem resolveRotation_fields (s : CharacterMovementState) (r : ℚ) :
    (resolveRotation s r).grounded = s.grounded ∧
    (resolveRotation s r).jumping = s.jumping ∧
    (resolveRotation s r).rotating_right = s.rotating_right ∧
    (resolveRotation s r).rotating_left = s.rotating_left ∧
    (resolveRotation s r).direction = s.direction ∧
    (resolveRotation s r).speed = s.speed := by
  unfold resolveRotation
  split
  · exact apply_right_left_rotation_fields s
  · simp

/-- The movement state written back by one movement step is the folded state
with rotation resolved against the final set_rotation value. -/
theorem movementStep_state (d : MovementData) (acts : List MovementAction) :
    (movementStep d acts).movement_state =
      resolveRotation (foldActions d.movement_state acts).1
        (foldActions d.movement_state acts).2 := rfl

/-- The vertical linear velocity after one movement step: the jump impulse
when the resolved state is grounded and jumping, else the incoming value. -/
theorem movementStep_linvel_y (d : MovementData) (acts : List MovementAction) :
    (movementStep d acts).velocity.linvel.y =
      if (resolveRotation (foldActions d.movement_state acts).1
            (foldActions d.movement_state acts).2).grounded
          && (resolveRotation (foldActions d.movement_state acts).1
            (foldActions d.movement_state acts).2).jumping then d.jump_impulse
      else d.velocity.linvel.y := by
  simp only [movementStep]
  split <;> rfl

/-- The x linear velocity written by one movement step. -/
theorem movementStep_linvel_x (d : MovementData) (acts : List MovementAction) :
    (movementStep d acts).velocity.linvel.x =
      (worldDir d.rotation (foldActions d.movement_state acts).1).x *
        d.movement_acceleration *
        effectiveSpeed (foldActions d.movement_state acts).1 := by
  simp only [movementStep]
  split <;> rfl

/-- The z linear velocity written by one movement step. -/
theorem movementStep_linvel_z (d : MovementData) (acts : List MovementAction) :
    (movementStep d acts).velocity.linvel.z =
      (worldDir d.rotation (foldActions d.movement_state acts).1).z *
        d.movement_acceleration *
        effectiveSpeed (foldActions d.movement_state acts).1 := by
  simp only [movementStep]
  split <;> rfl

/-- With a drained reader every remaining controller folds the empty action
list. -/
theorem movementAux_drained (rest : List MovementData) :
    movementAux [] rest = rest.map (fun r => movementStep r []) := by
  induction rest with
  | nil => rfl
  | cons d tail ih =>
      show movementStep d (([] : List (ClientId × MovementAction)).map Prod.snd)
          :: movementAux [] tail = _
      rw [ih]
      rfl

/-- Membership in a conditional singleton forces equality with the single
element. -/
theorem mem_ite_single {α : Type} {a x : α} {b : Bool}
    (h : a ∈ if b = true then [x] else []) : a = x := by
  cases b
  · simp at h
  · simpa using h

/-- A fixed concrete MovementData row used by the concrete evaluations: the
default movement bundle constants of controller.rs (acceleration 30, jump
impulse 8) with the identity rotation, the default state, and zero
velocity. -/
def baseData : MovementData :=
  { movement_acceleration := 30
    rotation := Quat.identity
    jump_impulse := 8
    movement_state := CharacterMovementState.default
    velocity := Velocity.zero }

/-- Claim C1: the authority predicate is true exactly for the
dedicated-server and single-player roles and false for a connected remote
client, and the Movement set runs the movement system only under this
predicate, so on a connected client no sequence of incoming actions changes
any controller. -/
theorem authority_gate_spec :
    has_server_authority (clientStateOfRole ProcessRole.DedicatedServer) = true ∧
    has_server_authority (clientStateOfRole ProcessRole.SinglePlayer) = true ∧
    has_server_authority (clientStateOfRole ProcessRole.ConnectedClient) = false ∧
    ∀ (events : List (ClientId × MovementAction))
      (controllers : List MovementData),
      movementSet (clientStateOfRole ProcessRole.ConnectedClient) events
        controllers = controllers := by
  refine ⟨rfl, rfl, rfl, ?_⟩
  intro events controllers
  rfl

/-- Claim C2: after every fold of the movement system, the vertical linear
velocity equals the jump impulse exactly when the post-fold state is
grounded and jumping, and is left at its incoming value otherwise — in
particular a jump request while airborne adds no vertical impulse this
tick. -/
theorem jump_impulse_spec (d : MovementData) (acts : List MovementAction) :
    (movementStep d acts).velocity.linvel.y =
      if (movementStep d acts).movement_state.grounded
          && (movementStep d acts).movement_state.jumping then d.jump_impulse
      else d.velocity.linvel.y := by
  rw [movementStep_state]
  exact movementStep_linvel_y d acts

/-- Claim C9: the locomotion classifier selects Fall whenever the state is
not grounded, Idle when grounded with zero direction, Run when grounded and
moving with speed at least 0.15, and Walk when grounded and moving with
speed below 0.15. -/
theorem classifier_spec (s : CharacterMovementState) :
    next_animation s =
      if s.grounded = false then CharacterAnimation.Fall
      else if s.direction = Vec3.zero then CharacterAnimation.Idle
      else if 15 / 100 ≤ s.speed then CharacterAnimation.Run
      else CharacterAnimation.Walk := by
  unfold next_animation CharacterMovementState.is_moving
    CharacterMovementState.is_running
  rcases hg : s.grounded <;> by_cases hd : s.direction = Vec3.zero <;>
    by_cases hs : 15 / 100 ≤ s.speed <;> simp [hg, hd, hs]

unseal Rat.mul Rat.add Rat.sub Rat.inv in
/-- Claim C3 counterexample: the movement system applies a set-direction
action without any clamp, so folding one SetMove with payload (2, 0, 0)
from the default state leaves a direction component outside [-1, 1]. -/
theorem direction_box_cex :
    ¬ dirInBounds
      (foldActions CharacterMovementState.default
        [MovementAction.SetMove ⟨2, 0, 0⟩]).1 := by
  decide

/-- Claim C3 as amended: a per-tick fold keeps every direction component in
[-1, 1] provided the incoming state satisfies the bound and every
set-direction payload of the tick does; add-direction alone preserves the
bound unconditionally because it clamps per axis, but set-direction stores
its payload unchanged. -/
theorem direction_box_spec (s : CharacterMovementState)
    (acts : List MovementAction) (hs : dirInBounds s)
    (hacts : setMovesBounded acts = true) :
    dirInBounds (foldActions s acts).1 := by
  unfold foldActions
  refine foldl_applyAction_preserve dirInBounds acts (s, 0) hs ?_
  intro q a ha hq
  cases a with
  | AddMove v => exact add_direction_bounds q.1 v
  | SetMove v =>
      have hv := List.all_eq_true.mp hacts _ ha
      simp only [decide_eq_true_eq] at hv
      simpa [applyAction, dirInBounds] using hv
  | SetSpeed v => simpa [applyAction, dirInBounds] using hq
  | RotateRight v => simpa [applyAction, dirInBounds] using hq
  | RotateLeft v => simpa [applyAction, dirInBounds] using hq
  | SetRotate v => simpa [applyAction, dirInBounds] using hq
  | SetJump v => simpa [applyAction, dirInBounds] using hq

unseal Rat.mul Rat.add Rat.sub Rat.inv in
/-- Witness for the amended claim C3 at a concrete state and action list. -/
theorem direction_box_spec_witness :
    dirInBounds CharacterMovementState.default ∧
    setMovesBounded
      [MovementAction.SetMove ⟨1, 0, 0⟩, MovementAction.AddMove ⟨0, 0, 1⟩]
      = true ∧
    dirInBounds
      (foldActions CharacterMovementState.default
        [MovementAction.SetMove ⟨1, 0, 0⟩,
          MovementAction.AddMove ⟨0, 0, 1⟩]).1 :=
  ⟨by decide, by decide,
    direction_box_spec CharacterMovementState.default
      [MovementAction.SetMove ⟨1, 0, 0⟩, MovementAction.AddMove ⟨0, 0, 1⟩]
      (by decide) (by decide)⟩

unseal Rat.mul Rat.add Rat.sub Rat.inv in
/-- Claim C4 counterexample: the movement system stores a set-speed payload
without validation, so folding SetSpeed 1 from the default state leaves a
speed that is neither the run preset 0.15 nor the walk preset 0.05. -/
theorem speed_preset_cex :
    ¬ speedPreset
      (foldActions CharacterMovementState.default
        [MovementAction.SetSpeed 1]).1 := by
  decide

unseal Rat.mul Rat.add Rat.sub Rat.inv in
/-- Claim C4 as amended: the keyboard collector only ever emits the two
preset speed values, and a fold keeps speed within the preset set provided
every set-speed payload of the tick is a preset; the integrator itself
performs no validation, so an arbitrary network-supplied float is stored
as-is. -/
theorem speed_preset_spec :
    (∀ k : KeyboardSample, setSpeedsPreset (keyboard_input k) = true) ∧
    ∀ (s : CharacterMovementState) (acts : List MovementAction),
      speedPreset s → setSpeedsPreset acts = true →
      speedPreset (foldActions s acts).1 := by
  constructor
  · intro k
    show (keyboard_input k).all _ = true
    refine List.all_eq_true.mpr ?_
    intro a ha
    unfold keyboard_input at ha
    simp only [List.mem_append, or_assoc] at ha
    rcases ha with h|h|h|h|h|h|h|h|h|h|h|h|h|h|h|h <;>
      rw [mem_ite_single h] <;> simp
  · intro s acts hs hacts
    unfold foldActions
    refine foldl_applyAction_preserve speedPreset acts (s, 0) hs ?_
    intro q a ha hq
    cases a with
    | SetSpeed v =>
        have hv := List.all_eq_true.mp hacts _ ha
        simp only [decide_eq_true_eq] at hv
        simpa [applyAction, speedPreset] using hv
    | AddMove v =>
        simpa [applyAction, CharacterMovementState.add_direction, speedPreset]
          using hq
    | SetMove v => simpa [applyAction, speedPreset] using hq
    | RotateRight v => simpa [applyAction, speedPreset] using hq
    | RotateLeft v => simpa [applyAction, speedPreset] using hq
    | SetRotate v => simpa [applyAction, speedPreset] using hq
    | SetJump v => simpa [applyAction, speedPreset] using hq

unseal Rat.mul Rat.add Rat.sub Rat.inv in
/-- Witness for the amended claim C4 at a concrete state and action list. -/
theorem speed_preset_spec_witness :
    speedPreset CharacterMovementState.default ∧
    setSpeedsPreset [MovementAction.SetSpeed (5 / 100)] = true ∧
    speedPreset
      (foldActions CharacterMovementState.default
        [MovementAction.SetSpeed (5 / 100)]).1 :=
  ⟨by decide, by decide,
    speed_preset_spec.2 CharacterMovementState.default
      [MovementAction.SetSpeed (5 / 100)] (by decide) (by decide)⟩

unseal Rat.mul Rat.add Rat.sub Rat.inv in
/-- Claim C5 counterexample: after folding two orthogonal unit
add-direction actions from the default state, the stored post-fold
direction is (1, 0, 1), whose squared magnitude 2 exceeds 1 — the
unit-length clamp is never applied to the stored state. -/
theorem stored_direction_cex :
    ¬ normSq
      ((movementStep baseData
        [MovementAction.AddMove ⟨1, 0, 0⟩,
          MovementAction.AddMove ⟨0, 0, 1⟩]).movement_state.direction) ≤ 1 := by
  decide

/-- Claim C5 as amended: the unit-length clamp applies only to the local
copy of direction used to derive the velocity command; the stored
MovementState direction after every fold is exactly the folded value and is
not clamped to unit length. -/
theorem stored_direction_spec (d : MovementData) (acts : List MovementAction) :
    (movementStep d acts).movement_state.direction =
      (foldActions d.movement_state acts).1.direction := by
  rw [movementStep_state]
  exact (resolveRotation_fields _ _).2.2.2.2.1

unseal Rat.mul Rat.add Rat.sub Rat.inv in
/-- Claim C6 counterexample: with the right toggle latched, a set-rotate
action carrying 0 does not override the toggle-derived value — the fold
resolves rotating to -1, not to the supplied 0. -/
theorem rotating_override_cex :
    (movementStep
      { baseData with movement_state :=
          { CharacterMovementState.default with rotating_right := true } }
      [MovementAction.SetRotate 0]).movement_state.rotating = -1 ∧
    (movementStep
      { baseData with movement_state :=
          { CharacterMovementState.default with rotating_right := true } }
      [MovementAction.SetRotate 0]).movement_state.rotating ≠ 0 := by
  constructor
  · decide
  · decide

/-- Claim C6 as amended: when the last set-rotate value supplied this tick
is nonzero, rotating equals that value; otherwise — no set-rotate at all,
or a last set-rotate carrying exactly 0, as emitted on look-button
release — the latched toggles decide: -1 when only the right toggle is
latched, +1 when only the left toggle is latched, 0 otherwise. -/
theorem rotating_resolution_spec (d : MovementData)
    (acts : List MovementAction) :
    (movementStep d acts).movement_state.rotating =
      if finalSetRotation acts = 0 then
        (if (movementStep d acts).movement_state.rotating_right = true ∧
            (movementStep d acts).movement_state.rotating_left = false then -1
         else if (movementStep d acts).movement_state.rotating_right = false ∧
            (movementStep d acts).movement_state.rotating_left = true then 1
         else 0)
      else finalSetRotation acts := by
  rw [movementStep_state]
  have hsnd : (foldActions d.movement_state acts).2 = finalSetRotation acts :=
    foldl_applyAction_snd acts (d.movement_state, 0)
  rw [hsnd]
  unfold resolveRotation
  by_cases h : finalSetRotation acts = 0
  · simp only [h, if_pos rfl]
    rcases h1 : (foldActions d.movement_state acts).1.rotating_right <;>
      rcases h2 : (foldActions d.movement_state acts).1.rotating_left <;>
        simp [CharacterMovementState.apply_right_left_rotation, h1, h2]
  · simp [h]

unseal Rat.mul Rat.add Rat.sub Rat.inv in
/-- Claim C7 counterexample: an entity rotated half a turn about the
vertical axis with stored direction (0, 0, 1) moves with a negative
world-space z-component, yet the velocity command is derived from the run
speed stored in the state, not from the walk preset the claim requires. -/
theorem backward_walk_cex :
    (worldDir (⟨0, 1, 0, 0⟩ : Quat)
      (foldActions
        { CharacterMovementState.default with direction := ⟨0, 0, 1⟩ } []).1).z
      < 0 ∧
    (movementStep
      { baseData with
          rotation := ⟨0, 1, 0, 0⟩
          movement_state :=
            { CharacterMovementState.default with direction := ⟨0, 0, 1⟩ } }
      []).velocity.linvel.z ≠
      (worldDir (⟨0, 1, 0, 0⟩ : Quat)
        (foldActions
          { CharacterMovementState.default with direction := ⟨0, 0, 1⟩ } []).1).z
        * 30 * (5 / 100) := by
  constructor
  · decide
  · decide

/-- Claim C7 as amended: the backward test of the integrator reads the z
component of the stored local-space direction, before rotation into world
space; whenever the post-fold stored direction has negative z, the
horizontal velocity command is computed from the walk preset 0.05,
independent of the stored speed field. -/
theorem backward_walk_spec (d : MovementData) (acts : List MovementAction)
    (h : (foldActions d.movement_state acts).1.direction.z < 0) :
    (movementStep d acts).velocity.linvel.x =
      (worldDir d.rotation (foldActions d.movement_state acts).1).x *
        d.movement_acceleration * (5 / 100) ∧
    (movementStep d acts).velocity.linvel.z =
      (worldDir d.rotation (foldActions d.movement_state acts).1).z *
        d.movement_acceleration * (5 / 100) := by
  have hspeed : effectiveSpeed (foldActions d.movement_state acts).1 = 5 / 100 := by
    unfold effectiveSpeed CharacterMovementState.is_moving_backwards
    simp [h]
  constructor
  · rw [movementStep_linvel_x, hspeed]
  · rw [movementStep_linvel_z, hspeed]

unseal Rat.mul Rat.add Rat.sub Rat.inv in
/-- Witness for the amended claim C7: the default state with stored
direction (0, 0, -1) folds to a negative local z, and the velocity command
uses the walk preset. -/
theorem backward_walk_spec_witness :
    (foldActions
      { CharacterMovementState.default with direction := ⟨0, 0, -1⟩ }
      []).1.direction.z < 0 ∧
    ((movementStep
        { baseData with movement_state :=
            { CharacterMovementState.default with direction := ⟨0, 0, -1⟩ } }
        []).velocity.linvel.x =
      (worldDir Quat.identity
        (foldActions
          { CharacterMovementState.default with direction := ⟨0, 0, -1⟩ }
          []).1).x * 30 * (5 / 100) ∧
    (movementStep
        { baseData with movement_state :=
            { CharacterMovementState.default with direction := ⟨0, 0, -1⟩ } }
        []).velocity.linvel.z =
      (worldDir Quat.identity
        (foldActions
          { CharacterMovementState.default with direction := ⟨0, 0, -1⟩ }
          []).1).z * 30 * (5 / 100)) :=
  ⟨by decide,
    backward_walk_spec
      { baseData with movement_state :=
          { CharacterMovementState.default with direction := ⟨0, 0, -1⟩ } }
      [] (by decide)⟩

/-- Claim C8: the ground probe sets grounded to true exactly when the
downward ray cast from just above the foot of the entity — excluding the
collider of the entity itself — hits a surface and either no slope limit is
configured or the absolute angle between the hit normal and world up is at
most the configured limit; in every other case grounded becomes false. -/
theorem grounded_iff_spec (cast_ray : CastRay) (entity : EntityId)
    (translation : Vec3) (max_slope_angle : Option ℚ)
    (s : CharacterMovementState) :
    (update_grounded_entity cast_ray entity translation max_slope_angle
        s).grounded = true ↔
      ∃ i,
        cast_ray
          (translation - vscale (PROBE_ORIGIN_TO_FOOT - 1 / 100) Vec3.unitY)
          (-Vec3.unitY) PROBE_DISTANCE entity = some i ∧
        (max_slope_angle = none ∨
          ∃ a, max_slope_angle = some a ∧ |i.normalAngleFromUp| ≤ a) := by
  unfold update_grounded_entity
  dsimp only
  rcases hc : cast_ray
      (translation - vscale (PROBE_ORIGIN_TO_FOOT - 1 / 100) Vec3.unitY)
      (-Vec3.unitY) PROBE_DISTANCE entity with _ | i
  · simp
  · rcases max_slope_angle with _ | a
    · simp
    · simp

/-- Claim C10: the movement system never consults the sending client of a
message — relabelling every sender arbitrarily changes nothing — and its
inner read loop drains the whole queue while handling the first controller
of the iteration, so that controller folds every action of the tick and all
remaining controllers fold the empty sequence (their velocity still being
reset and recomputed from their unchanged state). -/
theorem reader_drain_spec (events : List (ClientId × MovementAction))
    (d : MovementData) (rest : List MovementData) :
    movement events (d :: rest) =
      movementStep d (events.map Prod.snd) ::
        rest.map (fun r => movementStep r []) ∧
    ∀ f : ClientId → ClientId,
      movement (events.map fun p => (f p.1, p.2)) (d :: rest) =
        movement events (d :: rest) := by
  constructor
  · show movementAux events (d :: rest) = _
    rw [show movementAux events (d :: rest) =
        movementStep d (events.map Prod.snd) :: movementAux [] rest from rfl]
    rw [movementAux_drained]
  · intro f
    show movementAux _ (d :: rest) = movementAux _ (d :: rest)
    rw [show movementAux (events.map fun p => (f p.1, p.2)) (d :: rest) =
        movementStep d ((events.map fun p => (f p.1, p.2)).map Prod.snd)
          :: movementAux [] rest from rfl]
    rw [show movementAux events (d :: rest) =
        movementStep d (events.map Prod.snd) :: movementAux [] rest from rfl]
    rw [List.map_map]
    rfl

end Merlo
